import Mathlib

/-!
Shallow embedding of `ai2_kit/domain/dplr.py` (DPLR data preparation
utilities) and verification of its specification claims.

Modelling conventions:
* Coordinates are exact rationals; a 3-vector is `Vec3`.
* The periodic cell is orthorhombic: the box is a `Vec3` of edge lengths,
  matching `cell_to_cellpar` of a diagonal cell.  `MDAnalysis`'s
  `minimize_vectors` / `distance_array` minimum-image operations for such a
  box are `mic` / the `withinCutoff` test below (the distance comparison
  `dist < cutoff` is expressed on squared norms, avoiding square roots:
  for `cutoff > 0`, `dist < cutoff ↔ dist² < cutoff²`, and for
  `cutoff ≤ 0` the comparison is always false).
* Python exceptions are modelled by `Except PyError`; `ValueError` and
  `AssertionError` are distinguished because `dpdata_read_cp2k_dplr_data`
  catches only `ValueError`.  An `UnboundLocalError` constructor models a
  read of a local variable before its assignment.
-/

namespace Dplr

/-- A 3-vector of rational coordinates. -/
structure Vec3 where
  x : ℚ
  y : ℚ
  z : ℚ
deriving DecidableEq, Repr

def v0 : Vec3 := ⟨0, 0, 0⟩

def vadd (a b : Vec3) : Vec3 := ⟨a.x + b.x, a.y + b.y, a.z + b.z⟩

def vsub (a b : Vec3) : Vec3 := ⟨a.x - b.x, a.y - b.y, a.z - b.z⟩

def vsmul (c : ℚ) (a : Vec3) : Vec3 := ⟨c * a.x, c * a.y, c * a.z⟩

def vsum (l : List Vec3) : Vec3 := l.foldr vadd v0

/-- `numpy`'s `.mean(axis=0)` over a list of rows: sum divided by length. -/
def vmean (l : List Vec3) : Vec3 := vsmul (1 / (l.length : ℚ)) (vsum l)

def normSq (v : Vec3) : ℚ := v.x ^ 2 + v.y ^ 2 + v.z ^ 2

/-- One component of the minimum-image displacement in a periodic direction
of length `L`: `d - L * round (d / L)`. -/
def micComp (L d : ℚ) : ℚ := d - L * round (d / L)

/-- Minimum-image convention displacement for an orthorhombic `box`
(`minimize_vectors` of MDAnalysis on such a box). -/
def mic (box d : Vec3) : Vec3 :=
  ⟨micComp box.x d.x, micComp box.y d.y, micComp box.z d.z⟩

/-- The minimum-image displacement from atom `r` to center `c`. -/
def micDisp (box r c : Vec3) : Vec3 := mic box (vsub c r)

/-- `distance_array(r, c, box) < cutoff`, expressed on squared norms. -/
def withinCutoff (box : Vec3) (cutoff : ℚ) (r c : Vec3) : Bool :=
  decide (0 < cutoff ∧ normSq (micDisp box r c) < cutoff ^ 2)

/-- Python exception kinds raised (directly or via `assert`) in `dplr.py`. -/
inductive PyError where
  /-- `ValueError(f"wannier atoms {ii} has {cn} atoms in the cutoff range")`. -/
  | cardinalityViolation (atomIdx count : ℕ) : PyError
  /-- `ValueError` for a `type_map` / `sys_charge_map` length mismatch. -/
  | typeMapChargeMapMismatch : PyError
  /-- `ValueError` for a `sel_type` / `model_charge_map` length mismatch. -/
  | selTypeModelChargeMapMismatch : PyError
  /-- a failed `assert` statement (`AssertionError`). -/
  | assertionError : PyError
  /-- a local variable read before its assignment. -/
  | unboundLocalError : PyError
deriving DecidableEq, Repr

instance {ε α : Type} [DecidableEq ε] [DecidableEq α] : DecidableEq (Except ε α) := fun
  | .error e, .error f =>
    if h : e = f then isTrue (congrArg Except.error h)
    else isFalse (fun hh => h (Except.error.inj hh))
  | .error _, .ok _ => isFalse (fun hh => Except.noConfusion hh)
  | .ok _, .error _ => isFalse (fun hh => Except.noConfusion hh)
  | .ok a, .ok b =>
    if h : a = b then isTrue (congrArg Except.ok h)
    else isFalse (fun hh => h (Except.ok.inj hh))

/-- Whether a `PyError` is a Python `ValueError` (the only exception class
caught by `dpdata_read_cp2k_dplr_data`). -/
def PyError.isValueError : PyError → Bool
  | .cardinalityViolation _ _ => true
  | .typeMapChargeMapMismatch => true
  | .selTypeModelChargeMapMismatch => true
  | .assertionError => false
  | .unboundLocalError => false

/-- `np.where(mask)[0]` for `mask = dist_vec < wannier_cutoff`: indices of
the wannier centers within the cutoff of atom `r`. -/
def matchedIds (box : Vec3) (cutoff : ℚ) (e_coords : List Vec3) (r : Vec3) : List ℕ :=
  (e_coords.enum.filter (fun p => withinCutoff box cutoff r p.2)).map (fun p => p.1)

/-- `e_coords[mask]`: the wannier centers within the cutoff of atom `r`,
in index order. -/
def matchedCenters (box : Vec3) (cutoff : ℚ) (e_coords : List Vec3) (r : Vec3) : List Vec3 :=
  (e_coords.enum.filter (fun p => withinCutoff box cutoff r p.2)).map (fun p => p.2)

/-- Per-atom result of one iteration of the loop in `get_atomic_dipole`. -/
structure AtomResult where
  ids : List ℕ
  dipole : Vec3
  spread : List ℚ
deriving DecidableEq, Repr

/-- One iteration of the loop body of `get_atomic_dipole` for atom number
`ii` at position `r`: build the cutoff mask, raise `ValueError` unless
exactly 4 centers match, then average the minimum-image displacements and
gather the matched spreads. -/
def processAtom (box : Vec3) (cutoff : ℚ) (e_coords : List Vec3)
    (spreadAll : Option (List ℚ)) (ii : ℕ) (r : Vec3) : Except PyError AtomResult :=
  let ids := matchedIds box cutoff e_coords r
  let cn := ids.length
  if cn ≠ 4 then
    .error (.cardinalityViolation ii cn)
  else
    let rels := (matchedCenters box cutoff e_coords r).map (fun c => mic box (vsub c r))
    let sp := match spreadAll with
      | some s => ids.map (fun j => s.getD j 0)
      | none => []
    .ok ⟨ids, vmean rels, sp⟩

/-- The loop of `get_atomic_dipole` over the selected atoms, threading the
atom counter `ii`; stops at the first `ValueError`. -/
def assignAtoms (box : Vec3) (cutoff : ℚ) (e_coords : List Vec3)
    (spreadAll : Option (List ℚ)) : ℕ → List Vec3 → Except PyError (List AtomResult)
  | _, [] => .ok []
  | ii, r :: rs =>
    match processAtom box cutoff e_coords spreadAll ii r with
    | .error e => .error e
    | .ok a =>
      match assignAtoms box cutoff e_coords spreadAll (ii + 1) rs with
      | .error e => .error e
      | .ok rest => .ok (a :: rest)

/-- `get_atomic_dipole` of `dplr.py`.  Inputs: all atom coordinates, the
selected atom indices, the wannier-center coordinates, the orthorhombic box,
the cutoff, and (optionally) the per-center spread column read from the
spread file.  Returns `(atomic_dipole, extended_coords, wannier_spread)`
or the first raised exception. -/
def get_atomic_dipole (coords : List Vec3) (sel_ids : List ℕ) (e_coords : List Vec3)
    (box : Vec3) (cutoff : ℚ) (spreadAll : Option (List ℚ)) :
    Except PyError (List Vec3 × List Vec3 × List (List ℚ)) :=
  let refs := sel_ids.map (fun i => coords.getD i v0)
  match assignAtoms box cutoff e_coords spreadAll 0 refs with
  | .error e => .error e
  | .ok results =>
    let mlwc := (results.map (fun a => a.ids)).flatten
    if mlwc.dedup.length = sel_ids.length * 4 then
      let dips := results.map (fun a => a.dipole)
      let ext := coords ++ (results.zip refs).map (fun p => vadd p.1.dipole p.2)
      let spreads := match spreadAll with
        | some _ => results.map (fun a => a.spread)
        | none => []
      .ok (dips, ext, spreads)
    else
      .error .assertionError

/-- A one-frame `dpdata.LabeledSystem` restricted to the fields `dplr.py`
touches; the cell is orthorhombic, stored as its three edge lengths. -/
structure LabeledSystem where
  atom_names : List String
  atom_types : List ℕ
  coords : List Vec3
  cells : Vec3
  atomic_dipole : Option (List Vec3) := none
  wannier_spread : Option (List (List ℚ)) := none
deriving DecidableEq, Repr

/-- `np.where(np.isin(symbols, sel))[0]`: indices of the symbols that are
members of `sel`, in increasing order. -/
def selIndices (symbols : List String) (sel : List String) : List ℕ :=
  (symbols.enum.filter (fun p => decide (p.2 ∈ sel))).map (fun p => p.1)

/-- `get_sel_ids` of `dplr.py`. -/
def get_sel_ids (sys : LabeledSystem) (type_map : List String) (sel_type : List ℕ) : List ℕ :=
  let symbols := sys.atom_types.map (fun t => sys.atom_names.getD t "")
  selIndices symbols (sel_type.map (fun i => type_map.getD i ""))

/-- `arr[ids] = vals` on a zero-initialised array of `n` rows, `zero` being
the zero row: numpy assigns in sequence, so later duplicate indices win. -/
def scatterIdx {α : Type} (zero : α) (n : ℕ) (ids : List ℕ) (vals : List α) : List α :=
  (ids.zip vals).foldl (fun acc p => acc.set p.1 p.2) (List.replicate n zero)

/-- The mask `wannier_atoms.symbols == "X"` applied to the parsed wannier
file rows: keep only the wannier-center rows and take their positions. -/
def wannCenters (wannier_atoms : List (String × Vec3)) : List Vec3 :=
  (wannier_atoms.filter (fun p => p.1 = "X")).map (fun p => p.2)

/-- `set_dplr_ext_from_cp2k_output` of `dplr.py`.  `wannier_atoms` is the
parsed wannier file as (symbol, position) pairs; rows whose symbol is not
`"X"` are dropped by the mask.  The computed dipoles (and spreads, when
present) are scattered into full-size zero arrays at the selected indices
and attached to the system. -/
def set_dplr_ext_from_cp2k_output (dp_sys : LabeledSystem)
    (wannier_atoms : List (String × Vec3)) (type_map : List String) (sel_type : List ℕ)
    (wannier_cutoff : ℚ) (spreadAll : Option (List ℚ)) : Except PyError LabeledSystem :=
  let wcs := wannCenters wannier_atoms
  let natoms := dp_sys.atom_types.length
  let sel_ids := get_sel_ids dp_sys type_map sel_type
  match get_atomic_dipole dp_sys.coords sel_ids wcs dp_sys.cells wannier_cutoff spreadAll with
  | .error e => .error e
  | .ok res =>
    let atomic_dipole := res.1
    let wannier_spread := res.2.2
    let sys1 := { dp_sys with atomic_dipole := some (scatterIdx v0 natoms sel_ids atomic_dipole) }
    let spreadFull := scatterIdx ([0, 0, 0, 0] : List ℚ) natoms sel_ids wannier_spread
    let sys2 :=
      if 0 < wannier_spread.length then { sys1 with wannier_spread := some spreadFull }
      else sys1
    .ok sys2

/-- `dpdata_read_cp2k_dplr_data` of `dplr.py`, with the file reads already
performed: the parsed system and wannier rows are the inputs.  The body
wraps `set_dplr_ext_from_cp2k_output` in `try ... except ValueError`, which
turns a `ValueError` into a `None` result; any other exception (such as a
failed `assert`) propagates. -/
def dpdata_read_cp2k_dplr_data (dp_sys : LabeledSystem)
    (wannier_atoms : List (String × Vec3)) (type_map : List String) (sel_type : List ℕ)
    (wannier_cutoff : ℚ) (spreadAll : Option (List ℚ)) :
    Except PyError (Option LabeledSystem) :=
  match set_dplr_ext_from_cp2k_output dp_sys wannier_atoms type_map sel_type
      wannier_cutoff spreadAll with
  | .ok s => .ok (some s)
  | .error e => if e.isValueError then .ok none else .error e

/-- `ase.data.chemical_symbols`: the canonical element-symbol list, a
placeholder `"X"` followed by the 118 elements in atomic-number order. -/
def chemical_symbols : List String :=
  ["X", "H", "He", "Li", "Be", "B", "C", "N", "O", "F", "Ne",
   "Na", "Mg", "Al", "Si", "P", "S", "Cl", "Ar", "K", "Ca",
   "Sc", "Ti", "V", "Cr", "Mn", "Fe", "Co", "Ni", "Cu", "Zn",
   "Ga", "Ge", "As", "Se", "Br", "Kr", "Rb", "Sr", "Y", "Zr",
   "Nb", "Mo", "Tc", "Ru", "Rh", "Pd", "Ag", "Cd", "In", "Sn",
   "Sb", "Te", "I", "Xe", "Cs", "Ba", "La", "Ce", "Pr", "Nd",
   "Pm", "Sm", "Eu", "Gd", "Tb", "Dy", "Ho", "Er", "Tm", "Yb",
   "Lu", "Hf", "Ta", "W", "Re", "Os", "Ir", "Pt", "Au", "Hg",
   "Tl", "Pb", "Bi", "Po", "At", "Rn", "Fr", "Ra", "Ac", "Th",
   "Pa", "U", "Np", "Pu", "Am", "Cm", "Bk", "Cf", "Es", "Fm",
   "Md", "No", "Lr", "Rf", "Db", "Sg", "Bh", "Hs", "Mt", "Ds",
   "Rg", "Cn", "Nh", "Fl", "Mc", "Lv", "Ts", "Og"]

/-- The loop of `get_unused_symbols`: walk the remaining symbols, append
each one not already used, and stop as soon as the accumulator reaches
`size` (the break test runs every iteration, after the conditional
append). -/
def guLoop (used_symbols : List String) (size : ℕ) :
    List String → List String → List String
  | [], acc => acc
  | s :: rest, acc =>
    let acc1 := if s ∈ used_symbols then acc else acc ++ [s]
    if acc1.length = size then acc1 else guLoop used_symbols size rest acc1

/-- `get_unused_symbols` of `dplr.py`: scan the canonical element list in
reverse for symbols not in `used_symbols`. -/
def get_unused_symbols (used_symbols : List String) (size : ℕ) : List String :=
  guLoop used_symbols size chemical_symbols.reverse []

/-- An `ase.Atoms` object restricted to the fields `dump_dplr_lammps_data`
touches: parallel lists of chemical symbols and positions. -/
structure Atoms where
  symbols : List String
  positions : List Vec3
deriving DecidableEq, Repr

def Atoms.empty : Atoms := ⟨[], []⟩

/-- `atoms[atoms.symbols == sym]`: the sub-structure of the atoms whose
symbol is `sym` (a fresh copy, in original order). -/
def selectAtoms (a : Atoms) (sym : String) : Atoms :=
  let pairs := (a.symbols.zip a.positions).filter (fun p => p.1 = sym)
  ⟨pairs.map (fun p => p.1), pairs.map (fun p => p.2)⟩

/-- `v_atoms.set_chemical_symbols([vtype] * len(v_atoms))`. -/
def setSymbols (a : Atoms) (vtype : String) : Atoms :=
  { a with symbols := List.replicate a.symbols.length vtype }

/-- `new_atoms += v_atoms`. -/
def atomsAppend (a b : Atoms) : Atoms :=
  ⟨a.symbols ++ b.symbols, a.positions ++ b.positions⟩

/-- `np.where(atoms.symbols == sym)[0]`. -/
def whereSym (symbols : List String) (sym : String) : List ℕ :=
  (symbols.enum.filter (fun p => p.2 = sym)).map (fun p => p.1)

/-- The virtual-atom loop of `dump_dplr_lammps_data` over
`zip(sel_type, vtypes)`, accumulating the augmented structure and the
real/virtual atom index lists. -/
def dplrLoop (atoms : Atoms) (type_map : List String) :
    List (ℕ × String) → Atoms → List ℕ → List ℕ → Atoms × List ℕ × List ℕ
  | [], new_atoms, r_ids, v_ids => (new_atoms, r_ids, v_ids)
  | (atype, vtype) :: rest, new_atoms, r_ids, v_ids =>
    let sym := type_map.getD atype ""
    let v_atoms := setSymbols (selectAtoms atoms sym) vtype
    let r_ids1 := r_ids ++ whereSym atoms.symbols sym
    let v_ids1 := v_ids ++ (List.range v_atoms.symbols.length).map
      (fun k => k + new_atoms.symbols.length)
    dplrLoop atoms type_map rest (atomsAppend new_atoms v_atoms) r_ids1 v_ids1

/-- `charges[new_atoms.symbols == atype] = charge` executed over
`zip(type_map + vtypes, sys_charge_map + model_charge_map)` on a
zero-initialised array: per atom, the last matching pair wins, default 0. -/
def chargeOf (pairs : List (String × ℚ)) (sym : String) : ℚ :=
  match (pairs.filter (fun p => p.1 = sym)).getLast? with
  | some p => p.2
  | none => 0

/-- The data handed to the LAMMPS serializer: the augmented structure, the
per-atom charge array, and the bond rows `(bond id, bond type, left,
right)` with 1-based atom indices. -/
structure DplrLammpsData where
  new_atoms : Atoms
  charges : List ℚ
  bonds : List (ℕ × ℕ × ℕ × ℕ)
deriving DecidableEq, Repr

/-- `dump_dplr_lammps_data` of `dplr.py` up to the final file write: checks
the two charge-map lengths, builds the virtual atoms, charges and bonds. -/
def dump_dplr_lammps_data (atoms : Atoms) (type_map : List String) (sel_type : List ℕ)
    (sys_charge_map model_charge_map : List ℚ) : Except PyError DplrLammpsData :=
  if type_map.length ≠ sys_charge_map.length then
    .error .typeMapChargeMapMismatch
  else if sel_type.length ≠ model_charge_map.length then
    .error .selTypeModelChargeMapMismatch
  else
    let vtypes := get_unused_symbols type_map sel_type.length
    let (new_atoms, r_atom_ids, v_atom_ids) :=
      dplrLoop atoms type_map (sel_type.zip vtypes) atoms [] []
    let charges := new_atoms.symbols.map
      (chargeOf ((type_map ++ vtypes).zip (sys_charge_map ++ model_charge_map)))
    let n_bonds := r_atom_ids.length
    let bonds := (List.range n_bonds).map
      (fun k => (k + 1, 1, r_atom_ids.getD k 0 + 1, v_atom_ids.getD k 0 + 1))
    .ok ⟨new_atoms, charges, bonds⟩

/-- A heap of `Atoms` objects; a reference is an index, allocations append.
Used to track which object each mutation of `dump_dplr_lammps_data`
targets, so that non-mutation of the caller's object is a theorem about the
embedding rather than a feature of it. -/
abbrev Heap := List Atoms

def Heap.length (h : Heap) : ℕ := List.length h

def Heap.get (h : Heap) (r : ℕ) : Atoms := List.getD h r Atoms.empty

def Heap.write (h : Heap) (r : ℕ) (a : Atoms) : Heap := List.set h r a

def Heap.alloc (h : Heap) (a : Atoms) : Heap × ℕ := (h ++ [a], h.length)

/-- The virtual-atom loop of `dump_dplr_lammps_data` with explicit heap
effects: each iteration allocates a fresh `v_atoms` (fancy indexing copies),
mutates it via `set_chemical_symbols`, and mutates the `new_atoms` object
via `+=`.  The caller's object `atomsRef` is only ever read. -/
def dplrLoopHeap (atomsRef newRef : ℕ) (type_map : List String) :
    List (ℕ × String) → Heap → List ℕ → List ℕ → Heap × List ℕ × List ℕ
  | [], h, r_ids, v_ids => (h, r_ids, v_ids)
  | av :: rest, h, r_ids, v_ids =>
    let atoms := h.get atomsRef
    let new_atoms := h.get newRef
    let sym := type_map.getD av.1 ""
    let ha := h.alloc (selectAtoms atoms sym)
    let h1 := ha.1
    let vRef := ha.2
    let h2 := h1.write vRef (setSymbols (h1.get vRef) av.2)
    let r_ids1 := r_ids ++ whereSym atoms.symbols sym
    let v_ids1 := v_ids ++ (List.range (h2.get vRef).symbols.length).map
      (fun k => k + new_atoms.symbols.length)
    let h3 := h2.write newRef (atomsAppend new_atoms (h2.get vRef))
    dplrLoopHeap atomsRef newRef type_map rest h3 r_ids1 v_ids1

/-- `dump_dplr_lammps_data` with explicit heap effects: the caller passes a
heap and a reference to its `Atoms` object; the returned heap is the
caller's view after the call. -/
def dump_dplr_lammps_data_heap (h : Heap) (atomsRef : ℕ) (type_map : List String)
    (sel_type : List ℕ) (sys_charge_map model_charge_map : List ℚ) :
    Heap × Except PyError DplrLammpsData :=
  if type_map.length ≠ sys_charge_map.length then
    (h, .error .typeMapChargeMapMismatch)
  else if sel_type.length ≠ model_charge_map.length then
    (h, .error .selTypeModelChargeMapMismatch)
  else
    let ha := h.alloc (h.get atomsRef)
    let h0 := ha.1
    let newRef := ha.2
    let vtypes := get_unused_symbols type_map sel_type.length
    let res := dplrLoopHeap atomsRef newRef type_map (sel_type.zip vtypes) h0 [] []
    let h1 := res.1
    let r_atom_ids := res.2.1
    let v_atom_ids := res.2.2
    let new_atoms := h1.get newRef
    let charges := new_atoms.symbols.map
      (chargeOf ((type_map ++ vtypes).zip (sys_charge_map ++ model_charge_map)))
    let n_bonds := r_atom_ids.length
    let bonds := (List.range n_bonds).map
      (fun k => (k + 1, 1, r_atom_ids.getD k 0 + 1, v_atom_ids.getD k 0 + 1))
    (h1, .ok ⟨new_atoms, charges, bonds⟩)

/-- `reshape(rows, d)` of a flat list: row `k` is elements
`k*d .. k*d+d-1`; the number of rows is `length / d`. -/
def chunkList {α : Type} (d : ℕ) (l : List α) : List (List α) :=
  (List.range (l.length / d)).map (fun k => (l.drop (k * d)).take d)

/-- The per-file core of `dplr_v3_to_v2`: reshape each frame of the full
per-atom tensor to `n_atoms` rows, keep the selected rows, and flatten. -/
def dplr_v3_to_v2_file (type_map : List String) (atype : List ℕ)
    (sel_symbol : List String) (raw_data : List (List ℚ)) : List (List ℚ) :=
  let symbols := atype.map (fun t => type_map.getD t "")
  let sel_ids := selIndices symbols sel_symbol
  let n_atoms := atype.length
  raw_data.map (fun frame =>
    let rows := chunkList (frame.length / n_atoms) frame
    ((sel_ids.map (fun i => rows.getD i [])).flatten))

/-- The per-file core of `dplr_v2_to_v3` as written in `dplr.py`: after
computing the selection metadata, the body evaluates
`np.load(fname).reshape([n_frames, len(sel_ids), -1])` with the local
`n_frames` only assigned on the following line, so every call raises
`UnboundLocalError` before touching the data. -/
def dplr_v2_to_v3_file (type_map : List String) (atype : List ℕ)
    (sel_symbol : List String) (raw_data : List (List ℚ)) :
    Except PyError (List (List ℚ)) :=
  let symbols := atype.map (fun t => type_map.getD t "")
  let _sel_ids := selIndices symbols sel_symbol
  let _n_atoms := atype.length
  let _raw := raw_data
  .error .unboundLocalError

/-- The per-file core of `dplr_v2_to_v3` with the frame count computed
before the reshape, the ordering the spec prescribes: scatter each compact
frame of `len(sel_ids)` rows into `n_atoms` zero rows and flatten. -/
def dplr_v2_to_v3_file_fixed (type_map : List String) (atype : List ℕ)
    (sel_symbol : List String) (raw_data : List (List ℚ)) : List (List ℚ) :=
  let symbols := atype.map (fun t => type_map.getD t "")
  let sel_ids := selIndices symbols sel_symbol
  let n_atoms := atype.length
  raw_data.map (fun frame =>
    let n_dim := frame.length / sel_ids.length
    let rows := chunkList n_dim frame
    (scatterIdx (List.replicate n_dim (0 : ℚ)) n_atoms sel_ids rows).flatten)

/-- All matched wannier-center indices, atom by atom: the aggregate list
whose distinct count the duplicate-assignment assertion inspects. -/
def allMatchedIds (coords : List Vec3) (sel_ids : List ℕ) (e_coords : List Vec3)
    (box : Vec3) (cutoff : ℚ) : List ℕ :=
  (sel_ids.map (fun i => matchedIds box cutoff e_coords (coords.getD i v0))).flatten

/-- A concrete one-frame test system: one oxygen at the origin and one
hydrogen far away, in a 10×10×10 orthorhombic cell. -/
def sysW : LabeledSystem :=
  ⟨["O", "H"], [0, 1], [⟨0, 0, 0⟩, ⟨5, 5, 5⟩], ⟨10, 10, 10⟩, none, none⟩

/-- Four wannier-center rows close to the oxygen of `sysW`. -/
def wannW : List (String × Vec3) :=
  [("X", ⟨1/4, 0, 0⟩), ("X", ⟨0, 1/4, 0⟩), ("X", ⟨0, 0, 1/4⟩), ("X", ⟨1/4, 1/4, 0⟩)]

/-- Only three wannier-center rows: a cardinality-violation input. -/
def wannW3 : List (String × Vec3) := wannW.take 3

/-- A system with two coincident oxygens: both match the same four centers
of `wannW`, a duplicate-assignment input. -/
def sysDup : LabeledSystem :=
  ⟨["O", "H"], [0, 0], [⟨0, 0, 0⟩, ⟨0, 0, 0⟩], ⟨10, 10, 10⟩, none, none⟩

/-- A concrete 2-oxygen, 4-hydrogen structure for the LAMMPS dump tests. -/
def atomsLmp : Atoms := ⟨["O", "O", "H", "H", "H", "H"], List.replicate 6 v0⟩

/-! ### List helper lemmas -/

lemma getD_set_of_ne {α : Type} (l : List α) (i j : ℕ) (a d : α) (h : i ≠ j) :
    (l.set i a).getD j d = l.getD j d := by
  simp [List.getD_eq_getElem?_getD, List.getElem?_set_ne h]

lemma getD_set_self_of_lt {α : Type} (l : List α) (i : ℕ) (a d : α) (h : i < l.length) :
    (l.set i a).getD i d = a := by
  simp [List.getD_eq_getElem?_getD, List.getElem?_set_self, h]

lemma getD_replicate_of_lt {α : Type} (n i : ℕ) (z d : α) (h : i < n) :
    (List.replicate n z).getD i d = z := by
  simp [List.getD_eq_getElem?_getD, List.getElem?_replicate, h]

lemma getD_map_of_lt {α β : Type} (l : List α) (f : α → β) (k : ℕ) (h : k < l.length)
    (d : α) (d' : β) : (l.map f).getD k d' = f (l.getD k d) := by
  simp [List.getD_eq_getElem?_getD, List.getElem?_map, List.getElem?_eq_getElem h]

lemma getD_append_of_lt {α : Type} (l l' : List α) (n : ℕ) (d : α) (h : n < l.length) :
    (l ++ l').getD n d = l.getD n d :=
  List.getD_append _ _ _ _ h

/-! ### `scatterIdx` lemmas -/

lemma foldl_set_getD_of_ne {α : Type} (i : ℕ) (d : α) :
    ∀ (pairs : List (ℕ × α)) (acc : List α), (∀ p ∈ pairs, p.1 ≠ i) →
      (pairs.foldl (fun acc p => acc.set p.1 p.2) acc).getD i d = acc.getD i d
  | [], _, _ => rfl
  | p :: ps, acc, h => by
    rw [List.foldl_cons, foldl_set_getD_of_ne i d ps _ (fun q hq => h q (List.mem_cons_of_mem p hq)),
      getD_set_of_ne _ _ _ _ _ (h p (List.mem_cons_self p ps))]

lemma foldl_set_length {α : Type} :
    ∀ (pairs : List (ℕ × α)) (acc : List α),
      (pairs.foldl (fun acc p => acc.set p.1 p.2) acc).length = acc.length
  | [], _ => rfl
  | p :: ps, acc => by
    rw [List.foldl_cons, foldl_set_length ps _, List.length_set]

lemma scatterIdx_length {α : Type} (z : α) (n : ℕ) (ids : List ℕ) (vals : List α) :
    (scatterIdx z n ids vals).length = n := by
  rw [scatterIdx, foldl_set_length, List.length_replicate]

lemma scatterIdx_getD_of_not_mem {α : Type} (z : α) (n : ℕ) (ids : List ℕ)
    (vals : List α) (i : ℕ) (d : α) (hi : i < n) (hmem : i ∉ ids) :
    (scatterIdx z n ids vals).getD i d = z := by
  rw [scatterIdx, foldl_set_getD_of_ne, getD_replicate_of_lt _ _ _ _ hi]
  intro p hp hpi
  exact hmem (hpi ▸ (List.of_mem_zip hp).1)

lemma foldl_set_getD_at {α : Type} (d : α) :
    ∀ (ids : List ℕ) (vals : List α) (acc : List α) (k : ℕ), ids.Nodup →
      k < ids.length → k < vals.length → ids.getD k 0 < acc.length →
      ((ids.zip vals).foldl (fun acc p => acc.set p.1 p.2) acc).getD (ids.getD k 0) d =
        vals.getD k d
  | [], _, _, k, _, hk, _, _ => absurd hk (by simp)
  | _ :: _, [], _, _, _, _, hkv, _ => absurd hkv (by simp)
  | i :: ids, v :: vals, acc, 0, hnd, _, _, hlt => by
    have hne : ∀ p ∈ ids.zip vals, p.1 ≠ i := fun p hp hpi =>
      (List.nodup_cons.mp hnd).1 (hpi ▸ (List.of_mem_zip hp).1)
    simp only [List.getD_cons_zero] at hlt ⊢
    rw [List.zip_cons_cons, List.foldl_cons, foldl_set_getD_of_ne i d _ _ hne]
    exact getD_set_self_of_lt acc i v d hlt
  | i :: ids, v :: vals, acc, k + 1, hnd, hk, hkv, hlt => by
    simp only [List.getD_cons_succ] at hlt ⊢
    rw [List.zip_cons_cons, List.foldl_cons]
    exact foldl_set_getD_at d ids vals _ k (List.nodup_cons.mp hnd).2
      (by simpa using hk) (by simpa using hkv) (by simpa using hlt)

lemma scatterIdx_getD_at {α : Type} (z : α) (n : ℕ) (ids : List ℕ) (vals : List α)
    (k : ℕ) (d : α) (hnd : ids.Nodup) (hk : k < ids.length) (hkv : k < vals.length)
    (hn : ids.getD k 0 < n) :
    (scatterIdx z n ids vals).getD (ids.getD k 0) d = vals.getD k d := by
  rw [scatterIdx, foldl_set_getD_at d ids vals _ k hnd hk hkv (by simpa using hn)]

/-! ### `selIndices` and `get_sel_ids` lemmas -/

lemma selIndices_sublist (symbols sel : List String) :
    (selIndices symbols sel).Sublist (List.range symbols.length) := by
  rw [selIndices, ← List.enum_map_fst symbols]
  exact List.Sublist.map _ (List.filter_sublist _)

lemma selIndices_nodup (symbols sel : List String) : (selIndices symbols sel).Nodup :=
  (selIndices_sublist symbols sel).nodup (List.nodup_range _)

lemma selIndices_mem_lt (symbols sel : List String) (i : ℕ)
    (h : i ∈ selIndices symbols sel) : i < symbols.length :=
  List.mem_range.mp ((selIndices_sublist symbols sel).mem h)

lemma get_sel_ids_nodup (sys : LabeledSystem) (type_map : List String)
    (sel_type : List ℕ) : (get_sel_ids sys type_map sel_type).Nodup :=
  selIndices_nodup _ _

lemma get_sel_ids_mem_lt (sys : LabeledSystem) (type_map : List String)
    (sel_type : List ℕ) (i : ℕ) (h : i ∈ get_sel_ids sys type_map sel_type) :
    i < sys.atom_types.length := by
  have := selIndices_mem_lt _ _ _ h
  simpa using this

/-! ### `processAtom` and `assignAtoms` lemmas -/

lemma matchedCenters_length (box : Vec3) (cutoff : ℚ) (e_coords : List Vec3) (r : Vec3) :
    (matchedCenters box cutoff e_coords r).length = (matchedIds box cutoff e_coords r).length := by
  simp [matchedCenters, matchedIds]

lemma processAtom_ok (box : Vec3) (cutoff : ℚ) (e_coords : List Vec3)
    (spreadAll : Option (List ℚ)) (ii : ℕ) (r : Vec3) (a : AtomResult)
    (h : processAtom box cutoff e_coords spreadAll ii r = .ok a) :
    a.ids = matchedIds box cutoff e_coords r ∧
    (matchedIds box cutoff e_coords r).length = 4 ∧
    a.dipole = vmean ((matchedCenters box cutoff e_coords r).map (fun c => mic box (vsub c r))) := by
  by_cases h4 : (matchedIds box cutoff e_coords r).length = 4
  · simp only [processAtom, h4, ne_eq, not_true_eq_false, if_false, Except.ok.injEq] at h
    subst h
    exact ⟨rfl, h4, rfl⟩
  · simp [processAtom, h4] at h

lemma processAtom_error (box : Vec3) (cutoff : ℚ) (e_coords : List Vec3)
    (spreadAll : Option (List ℚ)) (ii : ℕ) (r : Vec3) (err : PyError)
    (h : processAtom box cutoff e_coords spreadAll ii r = .error err) :
    ∃ cn, err = .cardinalityViolation ii cn ∧ cn ≠ 4 := by
  by_cases h4 : (matchedIds box cutoff e_coords r).length = 4
  · simp [processAtom, h4] at h
  · simp only [processAtom, h4, ne_eq, not_false_eq_true, if_true, Except.error.injEq] at h
    exact ⟨_, h.symm, h4⟩

lemma processAtom_ok_of_count (box : Vec3) (cutoff : ℚ) (e_coords : List Vec3)
    (spreadAll : Option (List ℚ)) (ii : ℕ) (r : Vec3)
    (h4 : (matchedIds box cutoff e_coords r).length = 4) :
    ∃ a, processAtom box cutoff e_coords spreadAll ii r = .ok a := by
  simp [processAtom, h4]

lemma assignAtoms_ok_length (box : Vec3) (cutoff : ℚ) (e_coords : List Vec3)
    (spreadAll : Option (List ℚ)) :
    ∀ (ii : ℕ) (refs : List Vec3) (res : List AtomResult),
      assignAtoms box cutoff e_coords spreadAll ii refs = .ok res →
      res.length = refs.length
  | _, [], res, h => by
    simp only [assignAtoms, Except.ok.injEq] at h
    subst h
    rfl
  | ii, r :: rs, res, h => by
    cases ha : processAtom box cutoff e_coords spreadAll ii r with
    | error e => simp [assignAtoms, ha] at h
    | ok a =>
      cases hrest : assignAtoms box cutoff e_coords spreadAll (ii + 1) rs with
      | error e => simp [assignAtoms, ha, hrest] at h
      | ok rest =>
        simp only [assignAtoms, ha, hrest, Except.ok.injEq] at h
        subst h
        simp [assignAtoms_ok_length box cutoff e_coords spreadAll (ii + 1) rs rest hrest]

lemma assignAtoms_ok_get (box : Vec3) (cutoff : ℚ) (e_coords : List Vec3)
    (spreadAll : Option (List ℚ)) :
    ∀ (ii : ℕ) (refs : List Vec3) (res : List AtomResult),
      assignAtoms box cutoff e_coords spreadAll ii refs = .ok res →
      ∀ k, k < refs.length →
        processAtom box cutoff e_coords spreadAll (ii + k) (refs.getD k v0) =
          .ok (res.getD k ⟨[], v0, []⟩)
  | _, [], _, _, k, hk => absurd hk (by simp)
  | ii, r :: rs, res, h, k, hk => by
    cases ha : processAtom box cutoff e_coords spreadAll ii r with
    | error e => simp [assignAtoms, ha] at h
    | ok a =>
      cases hrest : assignAtoms box cutoff e_coords spreadAll (ii + 1) rs with
      | error e => simp [assignAtoms, ha, hrest] at h
      | ok rest =>
        simp only [assignAtoms, ha, hrest, Except.ok.injEq] at h
        subst h
        cases k with
        | zero => simpa using ha
        | succ k =>
          have := assignAtoms_ok_get box cutoff e_coords spreadAll (ii + 1) rs rest hrest k
            (by simpa using hk)
          simpa [Nat.add_assoc, Nat.add_comm 1 k] using this

lemma assignAtoms_ok_ids (box : Vec3) (cutoff : ℚ) (e_coords : List Vec3)
    (spreadAll : Option (List ℚ)) :
    ∀ (ii : ℕ) (refs : List Vec3) (res : List AtomResult),
      assignAtoms box cutoff e_coords spreadAll ii refs = .ok res →
      res.map (fun a => a.ids) = refs.map (fun r => matchedIds box cutoff e_coords r)
  | _, [], res, h => by
    simp only [assignAtoms, Except.ok.injEq] at h
    subst h
    rfl
  | ii, r :: rs, res, h => by
    cases ha : processAtom box cutoff e_coords spreadAll ii r with
    | error e => simp [assignAtoms, ha] at h
    | ok a =>
      cases hrest : assignAtoms box cutoff e_coords spreadAll (ii + 1) rs with
      | error e => simp [assignAtoms, ha, hrest] at h
      | ok rest =>
        simp only [assignAtoms, ha, hrest, Except.ok.injEq] at h
        subst h
        have hids := (processAtom_ok box cutoff e_coords spreadAll ii r a ha).1
        simp [hids, assignAtoms_ok_ids box cutoff e_coords spreadAll (ii + 1) rs rest hrest]

lemma assignAtoms_ok_of_counts (box : Vec3) (cutoff : ℚ) (e_coords : List Vec3)
    (spreadAll : Option (List ℚ)) :
    ∀ (ii : ℕ) (refs : List Vec3),
      (∀ r ∈ refs, (matchedIds box cutoff e_coords r).length = 4) →
      ∃ res, assignAtoms box cutoff e_coords spreadAll ii refs = .ok res
  | _, [], _ => ⟨[], rfl⟩
  | ii, r :: rs, h => by
    obtain ⟨a, ha⟩ := processAtom_ok_of_count box cutoff e_coords spreadAll ii r
      (h r (List.mem_cons_self r rs))
    obtain ⟨rest, hrest⟩ := assignAtoms_ok_of_counts box cutoff e_coords spreadAll (ii + 1) rs
      (fun x hx => h x (List.mem_cons_of_mem r hx))
    refine ⟨a :: rest, ?_⟩
    simp [assignAtoms, ha, hrest]

lemma assignAtoms_error_shape (box : Vec3) (cutoff : ℚ) (e_coords : List Vec3)
    (spreadAll : Option (List ℚ)) :
    ∀ (ii : ℕ) (refs : List Vec3) (err : PyError),
      assignAtoms box cutoff e_coords spreadAll ii refs = .error err →
      ∃ i cn, err = .cardinalityViolation i cn ∧ cn ≠ 4
  | _, [], err, h => by simp [assignAtoms] at h
  | ii, r :: rs, err, h => by
    cases ha : processAtom box cutoff e_coords spreadAll ii r with
    | error e =>
      simp only [assignAtoms, ha, Except.error.injEq] at h
      subst h
      obtain ⟨cn, hcn, hne⟩ := processAtom_error box cutoff e_coords spreadAll ii r _ ha
      exact ⟨ii, cn, hcn, hne⟩
    | ok a =>
      cases hrest : assignAtoms box cutoff e_coords spreadAll (ii + 1) rs with
      | error e =>
        simp only [assignAtoms, ha, hrest, Except.error.injEq] at h
        subst h
        exact assignAtoms_error_shape box cutoff e_coords spreadAll (ii + 1) rs _ hrest
      | ok rest => simp [assignAtoms, ha, hrest] at h

lemma assignAtoms_error_of_bad (box : Vec3) (cutoff : ℚ) (e_coords : List Vec3)
    (spreadAll : Option (List ℚ)) :
    ∀ (ii : ℕ) (refs : List Vec3),
      (∃ r ∈ refs, (matchedIds box cutoff e_coords r).length ≠ 4) →
      ∃ err, assignAtoms box cutoff e_coords spreadAll ii refs = .error err
  | _, [], h => absurd h (by simp)
  | ii, r :: rs, h => by
    by_cases h4 : (matchedIds box cutoff e_coords r).length = 4
    · obtain ⟨a, ha⟩ := processAtom_ok_of_count box cutoff e_coords spreadAll ii r h4
      have hbad : ∃ x ∈ rs, (matchedIds box cutoff e_coords x).length ≠ 4 := by
        obtain ⟨x, hx, hne⟩ := h
        rcases List.mem_cons.mp hx with rfl | hx'
        · exact absurd h4 hne
        · exact ⟨x, hx', hne⟩
      obtain ⟨err, herr⟩ := assignAtoms_error_of_bad box cutoff e_coords spreadAll (ii + 1) rs hbad
      refine ⟨err, ?_⟩
      simp [assignAtoms, ha, herr]
    · refine ⟨.cardinalityViolation ii (matchedIds box cutoff e_coords r).length, ?_⟩
      have hp : processAtom box cutoff e_coords spreadAll ii r =
          .error (.cardinalityViolation ii (matchedIds box cutoff e_coords r).length) := by
        simp [processAtom, h4]
      simp [assignAtoms, hp]

lemma getD_mem_of_lt {α : Type} (l : List α) (k : ℕ) (d : α) (h : k < l.length) :
    l.getD k d ∈ l := by
  rw [List.getD_eq_getElem?_getD, List.getElem?_eq_getElem h]
  exact List.getElem_mem h

/-! ### `get_atomic_dipole` destructuring -/

lemma get_atomic_dipole_ok (coords : List Vec3) (sel_ids : List ℕ) (e_coords : List Vec3)
    (box : Vec3) (cutoff : ℚ) (spreadAll : Option (List ℚ)) (dips ext : List Vec3)
    (sps : List (List ℚ))
    (h : get_atomic_dipole coords sel_ids e_coords box cutoff spreadAll = .ok (dips, ext, sps)) :
    ∃ res, assignAtoms box cutoff e_coords spreadAll 0
        (sel_ids.map (fun i => coords.getD i v0)) = .ok res ∧
      dips = res.map (fun a => a.dipole) ∧
      ((res.map (fun a => a.ids)).flatten).dedup.length = sel_ids.length * 4 := by
  cases hres : assignAtoms box cutoff e_coords spreadAll 0
      (sel_ids.map (fun i => coords.getD i v0)) with
  | error e =>
    simp only [get_atomic_dipole, hres] at h
    exact Except.noConfusion h
  | ok res =>
    by_cases hd : ((res.map (fun a => a.ids)).flatten).dedup.length = sel_ids.length * 4
    · refine ⟨res, rfl, ?_, hd⟩
      simp only [get_atomic_dipole, hres, hd, if_true, Except.ok.injEq, Prod.mk.injEq] at h
      exact h.1.symm
    · simp only [get_atomic_dipole, hres] at h
      rw [if_neg hd] at h
      exact Except.noConfusion h

/-- C1: for every frame processed successfully by `get_atomic_dipole`, the
atomic dipole of each selected atom is the arithmetic mean (one quarter of
the sum) of the four minimum-image displacement vectors from that atom to
its matched wannier centers (the centers within the cutoff). -/
theorem atomic_dipole_is_mean_of_mic_displacements
    (coords : List Vec3) (sel_ids : List ℕ) (e_coords : List Vec3) (box : Vec3)
    (cutoff : ℚ) (spreadAll : Option (List ℚ)) (dips ext : List Vec3) (sps : List (List ℚ))
    (hok : get_atomic_dipole coords sel_ids e_coords box cutoff spreadAll = .ok (dips, ext, sps))
    (k : ℕ) (hk : k < sel_ids.length) :
    (matchedCenters box cutoff e_coords (coords.getD (sel_ids.getD k 0) v0)).length = 4 ∧
    dips.getD k v0 = vsmul (1 / 4) (vsum
      ((matchedCenters box cutoff e_coords (coords.getD (sel_ids.getD k 0) v0)).map
        (fun c => micDisp box (coords.getD (sel_ids.getD k 0) v0) c))) := by
  obtain ⟨res, hres, hdips, -⟩ :=
    get_atomic_dipole_ok coords sel_ids e_coords box cutoff spreadAll dips ext sps hok
  have hlen : res.length = sel_ids.length := by
    rw [assignAtoms_ok_length box cutoff e_coords spreadAll 0 _ res hres, List.length_map]
  have hrefs : (sel_ids.map (fun i => coords.getD i v0)).getD k v0 =
      coords.getD (sel_ids.getD k 0) v0 :=
    getD_map_of_lt sel_ids _ k hk 0 v0
  have hpk := assignAtoms_ok_get box cutoff e_coords spreadAll 0 _ res hres k
    (by simpa using hk)
  rw [Nat.zero_add, hrefs] at hpk
  obtain ⟨hids, h4, hdip⟩ := processAtom_ok box cutoff e_coords spreadAll k _ _ hpk
  refine ⟨by rw [matchedCenters_length]; exact h4, ?_⟩
  subst hdips
  rw [getD_map_of_lt res (fun a => a.dipole) k (hlen ▸ hk) ⟨[], v0, []⟩ v0, hdip, vmean]
  simp only [micDisp]
  rw [List.length_map, matchedCenters_length box cutoff e_coords _, h4]
  norm_num

/-- C2: whenever some selected atom has a number of wannier centers within
the cutoff different from 4, `get_atomic_dipole` raises the
cardinality-violation `ValueError` (so no result, partial or otherwise, is
produced). -/
theorem atomic_dipole_cardinality_violation
    (coords : List Vec3) (sel_ids : List ℕ) (e_coords : List Vec3) (box : Vec3)
    (cutoff : ℚ) (spreadAll : Option (List ℚ)) (k : ℕ) (hk : k < sel_ids.length)
    (hbad : (matchedIds box cutoff e_coords (coords.getD (sel_ids.getD k 0) v0)).length ≠ 4) :
    ∃ i cn, get_atomic_dipole coords sel_ids e_coords box cutoff spreadAll =
      .error (.cardinalityViolation i cn) ∧ cn ≠ 4 := by
  have hmem : coords.getD (sel_ids.getD k 0) v0 ∈ sel_ids.map (fun i => coords.getD i v0) := by
    rw [← getD_map_of_lt sel_ids (fun i => coords.getD i v0) k hk 0 v0]
    exact getD_mem_of_lt _ k v0 (by simpa using hk)
  obtain ⟨err, herr⟩ := assignAtoms_error_of_bad box cutoff e_coords spreadAll 0 _
    ⟨_, hmem, hbad⟩
  obtain ⟨i, cn, rfl, hcn⟩ := assignAtoms_error_shape box cutoff e_coords spreadAll 0 _ _ herr
  exact ⟨i, cn, by simp only [get_atomic_dipole, herr], hcn⟩

/-- C1 witness: the one-oxygen system `sysW` with the four centers of
`wannW` is processed successfully and its dipole is the advertised mean. -/
theorem atomic_dipole_is_mean_of_mic_displacements_witness :
    get_atomic_dipole sysW.coords (get_sel_ids sysW ["O", "H"] [0]) (wannCenters wannW)
      sysW.cells 1 (some [2, 3, 5, 7]) =
      .ok ([⟨1/8, 1/8, 1/16⟩], [⟨0, 0, 0⟩, ⟨5, 5, 5⟩, ⟨1/8, 1/8, 1/16⟩], [[2, 3, 5, 7]]) ∧
    0 < (get_sel_ids sysW ["O", "H"] [0]).length ∧
    ((matchedCenters sysW.cells 1 (wannCenters wannW)
        (sysW.coords.getD ((get_sel_ids sysW ["O", "H"] [0]).getD 0 0) v0)).length = 4 ∧
      ([⟨1/8, 1/8, 1/16⟩] : List Vec3).getD 0 v0 = vsmul (1 / 4) (vsum
        ((matchedCenters sysW.cells 1 (wannCenters wannW)
            (sysW.coords.getD ((get_sel_ids sysW ["O", "H"] [0]).getD 0 0) v0)).map
          (fun c => micDisp sysW.cells
            (sysW.coords.getD ((get_sel_ids sysW ["O", "H"] [0]).getD 0 0) v0) c)))) :=
  ⟨by with_unfolding_all decide, by with_unfolding_all decide,
    atomic_dipole_is_mean_of_mic_displacements sysW.coords (get_sel_ids sysW ["O", "H"] [0])
      (wannCenters wannW) sysW.cells 1 (some [2, 3, 5, 7])
      [⟨1/8, 1/8, 1/16⟩] [⟨0, 0, 0⟩, ⟨5, 5, 5⟩, ⟨1/8, 1/8, 1/16⟩] [[2, 3, 5, 7]]
      (by with_unfolding_all decide) 0 (by with_unfolding_all decide)⟩

/-- C2 witness: with only the three centers of `wannW3`, the oxygen of
`sysW` matches 3 ≠ 4 centers and the assignor raises the cardinality
violation. -/
theorem atomic_dipole_cardinality_violation_witness :
    0 < (get_sel_ids sysW ["O", "H"] [0]).length ∧
    (matchedIds sysW.cells 1 (wannCenters wannW3)
        (sysW.coords.getD ((get_sel_ids sysW ["O", "H"] [0]).getD 0 0) v0)).length ≠ 4 ∧
    (∃ i cn, get_atomic_dipole sysW.coords (get_sel_ids sysW ["O", "H"] [0])
      (wannCenters wannW3) sysW.cells 1 none = .error (.cardinalityViolation i cn) ∧ cn ≠ 4) :=
  ⟨by with_unfolding_all decide, by with_unfolding_all decide,
    atomic_dipole_cardinality_violation sysW.coords (get_sel_ids sysW ["O", "H"] [0])
      (wannCenters wannW3) sysW.cells 1 none 0 (by with_unfolding_all decide) (by with_unfolding_all decide)⟩

lemma get_atomic_dipole_not_error_of (coords : List Vec3) (sel_ids : List ℕ)
    (e_coords : List Vec3) (box : Vec3) (cutoff : ℚ) (spreadAll : Option (List ℚ))
    (res : List AtomResult)
    (hres : assignAtoms box cutoff e_coords spreadAll 0
      (sel_ids.map (fun i => coords.getD i v0)) = .ok res)
    (heq : ((res.map (fun a => a.ids)).flatten).dedup.length = sel_ids.length * 4) :
    ∀ e, get_atomic_dipole coords sel_ids e_coords box cutoff spreadAll ≠ .error e := by
  intro e he
  simp only [get_atomic_dipole, hres] at he
  rw [if_pos heq] at he
  exact Except.noConfusion he

lemma get_atomic_dipole_ok_of (coords : List Vec3) (sel_ids : List ℕ)
    (e_coords : List Vec3) (box : Vec3) (cutoff : ℚ) (spreadAll : Option (List ℚ))
    (res : List AtomResult)
    (hres : assignAtoms box cutoff e_coords spreadAll 0
      (sel_ids.map (fun i => coords.getD i v0)) = .ok res)
    (heq : ((res.map (fun a => a.ids)).flatten).dedup.length = sel_ids.length * 4) :
    ∃ out, get_atomic_dipole coords sel_ids e_coords box cutoff spreadAll = .ok out := by
  cases hgad : get_atomic_dipole coords sel_ids e_coords box cutoff spreadAll with
  | ok out => exact ⟨out, rfl⟩
  | error e =>
    exact absurd hgad
      (get_atomic_dipole_not_error_of coords sel_ids e_coords box cutoff spreadAll res hres heq e)

/-- C3: once every selected atom has exactly 4 centers within the cutoff,
`get_atomic_dipole` fails with the duplicate-assignment assertion exactly
when the number of distinct matched center indices is less than 4 times the
number of selected atoms, and succeeds otherwise. -/
theorem atomic_dipole_duplicate_assignment
    (coords : List Vec3) (sel_ids : List ℕ) (e_coords : List Vec3) (box : Vec3)
    (cutoff : ℚ) (spreadAll : Option (List ℚ))
    (h4 : ∀ i ∈ sel_ids, (matchedIds box cutoff e_coords (coords.getD i v0)).length = 4) :
    (get_atomic_dipole coords sel_ids e_coords box cutoff spreadAll = .error .assertionError ↔
      (allMatchedIds coords sel_ids e_coords box cutoff).dedup.length < sel_ids.length * 4) ∧
    ((allMatchedIds coords sel_ids e_coords box cutoff).dedup.length = sel_ids.length * 4 →
      ∃ out, get_atomic_dipole coords sel_ids e_coords box cutoff spreadAll = .ok out) := by
  have h4' : ∀ r ∈ sel_ids.map (fun i => coords.getD i v0),
      (matchedIds box cutoff e_coords r).length = 4 := by
    intro r hr
    obtain ⟨i, hi, rfl⟩ := List.mem_map.mp hr
    exact h4 i hi
  obtain ⟨res, hres⟩ := assignAtoms_ok_of_counts box cutoff e_coords spreadAll 0 _ h4'
  have hflat : (res.map (fun a => a.ids)).flatten =
      allMatchedIds coords sel_ids e_coords box cutoff := by
    rw [assignAtoms_ok_ids box cutoff e_coords spreadAll 0 _ res hres, List.map_map,
      allMatchedIds]
    rfl
  have hlen : (allMatchedIds coords sel_ids e_coords box cutoff).length = sel_ids.length * 4 := by
    rw [allMatchedIds, List.length_flatten, List.map_map]
    have hc : sel_ids.map (List.length ∘ fun i => matchedIds box cutoff e_coords
        (coords.getD i v0)) = sel_ids.map (fun _ => 4) :=
      List.map_congr_left (fun i hi => h4 i hi)
    rw [hc, List.map_const', List.sum_replicate, smul_eq_mul]
  have hle : (allMatchedIds coords sel_ids e_coords box cutoff).dedup.length ≤
      sel_ids.length * 4 := by
    rw [← hlen]
    exact (List.dedup_sublist _).length_le
  constructor
  · constructor
    · intro herr
      by_contra hge
      push_neg at hge
      have heq : ((res.map (fun a => a.ids)).flatten).dedup.length = sel_ids.length * 4 := by
        rw [hflat]
        exact le_antisymm hle hge
      exact get_atomic_dipole_not_error_of coords sel_ids e_coords box cutoff spreadAll res
        hres heq _ herr
    · intro hlt
      simp only [get_atomic_dipole, hres, hflat]
      rw [if_neg (Nat.ne_of_lt hlt)]
  · intro heq
    refine get_atomic_dipole_ok_of coords sel_ids e_coords box cutoff spreadAll res hres ?_
    rw [hflat]
    exact heq

/-- C3 witness: the two coincident oxygens of `sysDup` each match the same
four centers of `wannW`, so only 4 < 8 distinct indices are matched and the
duplicate-assignment assertion fires. -/
theorem atomic_dipole_duplicate_assignment_witness :
    (∀ i ∈ get_sel_ids sysDup ["O", "H"] [0], (matchedIds sysDup.cells 1
      (wannCenters wannW) (sysDup.coords.getD i v0)).length = 4) ∧
    ((get_atomic_dipole sysDup.coords (get_sel_ids sysDup ["O", "H"] [0])
        (wannCenters wannW) sysDup.cells 1 none = .error .assertionError ↔
      (allMatchedIds sysDup.coords (get_sel_ids sysDup ["O", "H"] [0]) (wannCenters wannW)
        sysDup.cells 1).dedup.length < (get_sel_ids sysDup ["O", "H"] [0]).length * 4) ∧
    ((allMatchedIds sysDup.coords (get_sel_ids sysDup ["O", "H"] [0]) (wannCenters wannW)
        sysDup.cells 1).dedup.length = (get_sel_ids sysDup ["O", "H"] [0]).length * 4 →
      ∃ out, get_atomic_dipole sysDup.coords (get_sel_ids sysDup ["O", "H"] [0])
        (wannCenters wannW) sysDup.cells 1 none = .ok out)) :=
  ⟨by with_unfolding_all decide,
    atomic_dipole_duplicate_assignment sysDup.coords (get_sel_ids sysDup ["O", "H"] [0])
      (wannCenters wannW) sysDup.cells 1 none (by with_unfolding_all decide)⟩

/-- C5: on a valid input (every selected atom matches exactly 4 centers,
no center shared) the assignor returns one 3-vector per selected atom, and
the full-size arrays attached to the system are zero at every non-selected
index and equal to the computed values at the selected indices; the
optional spread array satisfies the same zero-outside-selection property. -/
theorem dplr_ext_arrays_zero_outside_selection (dp_sys : LabeledSystem)
    (wannier_atoms : List (String × Vec3)) (type_map : List String) (sel_type : List ℕ)
    (cutoff : ℚ) (spreadAll : Option (List ℚ))
    (hws : dp_sys.wannier_spread = none)
    (h4 : ∀ i ∈ get_sel_ids dp_sys type_map sel_type,
      (matchedIds dp_sys.cells cutoff (wannCenters wannier_atoms)
        (dp_sys.coords.getD i v0)).length = 4)
    (hdist : (allMatchedIds dp_sys.coords (get_sel_ids dp_sys type_map sel_type)
        (wannCenters wannier_atoms) dp_sys.cells cutoff).dedup.length =
      (get_sel_ids dp_sys type_map sel_type).length * 4) :
    ∃ dips ext sps sys2,
      get_atomic_dipole dp_sys.coords (get_sel_ids dp_sys type_map sel_type)
        (wannCenters wannier_atoms) dp_sys.cells cutoff spreadAll = .ok (dips, ext, sps) ∧
      set_dplr_ext_from_cp2k_output dp_sys wannier_atoms type_map sel_type cutoff spreadAll =
        .ok sys2 ∧
      dips.length = (get_sel_ids dp_sys type_map sel_type).length ∧
      (∃ full, sys2.atomic_dipole = some full ∧
        full.length = dp_sys.atom_types.length ∧
        (∀ i, i < dp_sys.atom_types.length → i ∉ get_sel_ids dp_sys type_map sel_type →
          full.getD i v0 = v0) ∧
        (∀ k, k < (get_sel_ids dp_sys type_map sel_type).length →
          full.getD ((get_sel_ids dp_sys type_map sel_type).getD k 0) v0 = dips.getD k v0)) ∧
      (∀ ws, sys2.wannier_spread = some ws →
        ws.length = dp_sys.atom_types.length ∧
        (∀ i, i < dp_sys.atom_types.length → i ∉ get_sel_ids dp_sys type_map sel_type →
          ws.getD i [] = [0, 0, 0, 0])) := by
  have h4' : ∀ r ∈ (get_sel_ids dp_sys type_map sel_type).map (fun i => dp_sys.coords.getD i v0),
      (matchedIds dp_sys.cells cutoff (wannCenters wannier_atoms) r).length = 4 := by
    intro r hr
    obtain ⟨i, hi, rfl⟩ := List.mem_map.mp hr
    exact h4 i hi
  obtain ⟨res, hres⟩ := assignAtoms_ok_of_counts dp_sys.cells cutoff (wannCenters wannier_atoms)
    spreadAll 0 _ h4'
  have hflat : (res.map (fun a => a.ids)).flatten =
      allMatchedIds dp_sys.coords (get_sel_ids dp_sys type_map sel_type)
        (wannCenters wannier_atoms) dp_sys.cells cutoff := by
    rw [assignAtoms_ok_ids dp_sys.cells cutoff (wannCenters wannier_atoms) spreadAll 0 _ res hres,
      List.map_map, allMatchedIds]
    rfl
  obtain ⟨out, hout⟩ := get_atomic_dipole_ok_of dp_sys.coords
    (get_sel_ids dp_sys type_map sel_type) (wannCenters wannier_atoms) dp_sys.cells cutoff
    spreadAll res hres (by rw [hflat]; exact hdist)
  obtain ⟨dips, ext, sps⟩ := out
  obtain ⟨res2, hres2, hdips, -⟩ := get_atomic_dipole_ok dp_sys.coords
    (get_sel_ids dp_sys type_map sel_type) (wannCenters wannier_atoms) dp_sys.cells cutoff
    spreadAll dips ext sps hout
  have hdlen : dips.length = (get_sel_ids dp_sys type_map sel_type).length := by
    rw [hdips, List.length_map,
      assignAtoms_ok_length dp_sys.cells cutoff (wannCenters wannier_atoms) spreadAll 0 _
        res2 hres2, List.length_map]
  have hnd : (get_sel_ids dp_sys type_map sel_type).Nodup := get_sel_ids_nodup _ _ _
  have hselk : ∀ k, k < (get_sel_ids dp_sys type_map sel_type).length →
      (get_sel_ids dp_sys type_map sel_type).getD k 0 < dp_sys.atom_types.length := by
    intro k hk
    exact get_sel_ids_mem_lt dp_sys type_map sel_type _ (getD_mem_of_lt _ k 0 hk)
  have hfull : ∀ i, i < dp_sys.atom_types.length →
      i ∉ get_sel_ids dp_sys type_map sel_type →
      (scatterIdx v0 dp_sys.atom_types.length (get_sel_ids dp_sys type_map sel_type)
        dips).getD i v0 = v0 :=
    fun i hi hmem => scatterIdx_getD_of_not_mem v0 _ _ dips i v0 hi hmem
  have hfullsel : ∀ k, k < (get_sel_ids dp_sys type_map sel_type).length →
      (scatterIdx v0 dp_sys.atom_types.length (get_sel_ids dp_sys type_map sel_type)
        dips).getD ((get_sel_ids dp_sys type_map sel_type).getD k 0) v0 = dips.getD k v0 :=
    fun k hk => scatterIdx_getD_at v0 _ _ dips k v0 hnd hk (hdlen ▸ hk) (hselk k hk)
  by_cases h0 : 0 < sps.length
  · have hset : set_dplr_ext_from_cp2k_output dp_sys wannier_atoms type_map sel_type cutoff
        spreadAll = .ok { dp_sys with
          atomic_dipole := some (scatterIdx v0 dp_sys.atom_types.length
            (get_sel_ids dp_sys type_map sel_type) dips),
          wannier_spread := some (scatterIdx ([0, 0, 0, 0] : List ℚ)
            dp_sys.atom_types.length (get_sel_ids dp_sys type_map sel_type) sps) } := by
      simp only [set_dplr_ext_from_cp2k_output, hout]
      rw [if_pos h0]
    refine ⟨dips, ext, sps, _, hout, hset, hdlen,
      ⟨_, rfl, scatterIdx_length _ _ _ _, hfull, hfullsel⟩, ?_⟩
    intro ws hws2
    simp only [Option.some.injEq] at hws2
    subst hws2
    exact ⟨scatterIdx_length _ _ _ _,
      fun i hi hmem => scatterIdx_getD_of_not_mem _ _ _ sps i _ hi hmem⟩
  · have hset : set_dplr_ext_from_cp2k_output dp_sys wannier_atoms type_map sel_type cutoff
        spreadAll = .ok { dp_sys with
          atomic_dipole := some (scatterIdx v0 dp_sys.atom_types.length
            (get_sel_ids dp_sys type_map sel_type) dips) } := by
      simp only [set_dplr_ext_from_cp2k_output, hout]
      rw [if_neg h0]
    refine ⟨dips, ext, sps, _, hout, hset, hdlen,
      ⟨_, rfl, scatterIdx_length _ _ _ _, hfull, hfullsel⟩, ?_⟩
    intro ws hws2
    have hws3 : dp_sys.wannier_spread = some ws := hws2
    rw [hws] at hws3
    exact Option.noConfusion hws3

/-- C5 witness: the valid one-oxygen system `sysW` with spread data. -/
theorem dplr_ext_arrays_zero_outside_selection_witness :
    sysW.wannier_spread = none ∧
    (∀ i ∈ get_sel_ids sysW ["O", "H"] [0], (matchedIds sysW.cells 1 (wannCenters wannW)
      (sysW.coords.getD i v0)).length = 4) ∧
    (allMatchedIds sysW.coords (get_sel_ids sysW ["O", "H"] [0]) (wannCenters wannW)
      sysW.cells 1).dedup.length = (get_sel_ids sysW ["O", "H"] [0]).length * 4 ∧
    (∃ dips ext sps sys2,
      get_atomic_dipole sysW.coords (get_sel_ids sysW ["O", "H"] [0]) (wannCenters wannW)
        sysW.cells 1 (some [2, 3, 5, 7]) = .ok (dips, ext, sps) ∧
      set_dplr_ext_from_cp2k_output sysW wannW ["O", "H"] [0] 1 (some [2, 3, 5, 7]) =
        .ok sys2 ∧
      dips.length = (get_sel_ids sysW ["O", "H"] [0]).length ∧
      (∃ full, sys2.atomic_dipole = some full ∧
        full.length = sysW.atom_types.length ∧
        (∀ i, i < sysW.atom_types.length → i ∉ get_sel_ids sysW ["O", "H"] [0] →
          full.getD i v0 = v0) ∧
        (∀ k, k < (get_sel_ids sysW ["O", "H"] [0]).length →
          full.getD ((get_sel_ids sysW ["O", "H"] [0]).getD k 0) v0 = dips.getD k v0)) ∧
      (∀ ws, sys2.wannier_spread = some ws →
        ws.length = sysW.atom_types.length ∧
        (∀ i, i < sysW.atom_types.length → i ∉ get_sel_ids sysW ["O", "H"] [0] →
          ws.getD i [] = [0, 0, 0, 0]))) :=
  ⟨rfl, by with_unfolding_all decide, by with_unfolding_all decide,
    dplr_ext_arrays_zero_outside_selection sysW wannW ["O", "H"] [0] 1 (some [2, 3, 5, 7])
      rfl (by with_unfolding_all decide) (by with_unfolding_all decide)⟩

/-- C4 counterexample: on the duplicate-assignment input the internal
failure is an `AssertionError`, which `dpdata_read_cp2k_dplr_data` does not
catch: the loader raises instead of returning the null result the claim
promises. -/
theorem dpdata_read_duplicate_assignment_raises :
    set_dplr_ext_from_cp2k_output sysDup wannW ["O", "H"] [0] 1 none =
      .error .assertionError ∧
    dpdata_read_cp2k_dplr_data sysDup wannW ["O", "H"] [0] 1 none =
      .error .assertionError ∧
    dpdata_read_cp2k_dplr_data sysDup wannW ["O", "H"] [0] 1 none ≠ .ok none :=
  ⟨by with_unfolding_all decide, by with_unfolding_all decide, by with_unfolding_all decide⟩

/-- C4 (amended): the loader converts exactly the `ValueError`-class
failures of the dipole assignment (the cardinality violation) into a null
result; a non-`ValueError` failure such as the duplicate-assignment
`AssertionError` propagates uncaught, and a success is returned as-is. -/
theorem dpdata_read_catches_only_value_error (dp_sys : LabeledSystem)
    (wannier_atoms : List (String × Vec3)) (type_map : List String) (sel_type : List ℕ)
    (wannier_cutoff : ℚ) (spreadAll : Option (List ℚ)) :
    (∀ e, set_dplr_ext_from_cp2k_output dp_sys wannier_atoms type_map sel_type
        wannier_cutoff spreadAll = .error e →
      dpdata_read_cp2k_dplr_data dp_sys wannier_atoms type_map sel_type
        wannier_cutoff spreadAll = (if e.isValueError then .ok none else .error e)) ∧
    (∀ s, set_dplr_ext_from_cp2k_output dp_sys wannier_atoms type_map sel_type
        wannier_cutoff spreadAll = .ok s →
      dpdata_read_cp2k_dplr_data dp_sys wannier_atoms type_map sel_type
        wannier_cutoff spreadAll = .ok (some s)) := by
  constructor
  · intro e he
    simp only [dpdata_read_cp2k_dplr_data, he]
  · intro s hs
    simp only [dpdata_read_cp2k_dplr_data, hs]

/-- C4 witness: a cardinality violation (a `ValueError`) is indeed turned
into the null result by the loader. -/
theorem dpdata_read_catches_only_value_error_witness :
    set_dplr_ext_from_cp2k_output sysW wannW3 ["O", "H"] [0] 1 none =
      .error (.cardinalityViolation 0 3) ∧
    dpdata_read_cp2k_dplr_data sysW wannW3 ["O", "H"] [0] 1 none = .ok none :=
  ⟨by with_unfolding_all decide, by
    have h := (dpdata_read_catches_only_value_error sysW wannW3 ["O", "H"] [0] 1 none).1
      (.cardinalityViolation 0 3) (by with_unfolding_all decide)
    simpa using h⟩

/-- C6: on a synthetic zero-padded full tensor (2 selected-of-3 atoms
zeroed, frame `[1,2,3]` at the selected oxygen), the v3-to-v2 gather
produces the compact tensor, but the v2-to-v3 scatter of `dplr.py` reads
its local `n_frames` before assigning it and so raises
`UnboundLocalError`; the same scatter with the frame count computed first
(as the spec prescribes) completes the round trip exactly. -/
theorem dplr_v2_v3_roundtrip_eval :
    dplr_v3_to_v2_file ["O", "H"] [0, 1, 1] ["O"] [[1, 2, 3, 0, 0, 0, 0, 0, 0]] =
      [[1, 2, 3]] ∧
    dplr_v2_to_v3_file ["O", "H"] [0, 1, 1] ["O"]
      (dplr_v3_to_v2_file ["O", "H"] [0, 1, 1] ["O"] [[1, 2, 3, 0, 0, 0, 0, 0, 0]]) =
      .error .unboundLocalError ∧
    dplr_v2_to_v3_file_fixed ["O", "H"] [0, 1, 1] ["O"]
      (dplr_v3_to_v2_file ["O", "H"] [0, 1, 1] ["O"] [[1, 2, 3, 0, 0, 0, 0, 0, 0]]) =
      [[1, 2, 3, 0, 0, 0, 0, 0, 0]] :=
  ⟨by with_unfolding_all decide, by with_unfolding_all decide, by with_unfolding_all decide⟩

/-- C7: for `type_map = [O, H]`, `sel_type = [0]`, charge maps `[6, 1]` and
`[-8]`, and two oxygens followed by four hydrogens at arbitrary positions,
the builder yields 8 atoms (the two virtuals carrying the unused symbol
`Og` and copying the oxygen positions), the charge array
`[6, 6, 1, 1, 1, 1, -8, -8]`, and two bonds of type 1 with 1-based indices
pairing each oxygen with its virtual partner. -/
theorem dump_dplr_lammps_data_water_example (p0 p1 p2 p3 p4 p5 : Vec3) :
    dump_dplr_lammps_data ⟨["O", "O", "H", "H", "H", "H"], [p0, p1, p2, p3, p4, p5]⟩
      ["O", "H"] [0] [6, 1] [-8] =
    .ok ⟨⟨["O", "O", "H", "H", "H", "H", "Og", "Og"], [p0, p1, p2, p3, p4, p5, p0, p1]⟩,
      [6, 6, 1, 1, 1, 1, -8, -8], [(1, 1, 1, 7), (2, 1, 2, 8)]⟩ := by
  with_unfolding_all rfl

/-- C8: the two charge-map length checks are performed first, so on any
mismatch the builder fails with the corresponding length-mismatch
`ValueError` regardless of the input atoms — before any atom is
processed. -/
theorem dump_dplr_lammps_data_length_mismatch (atoms : Atoms) (type_map : List String)
    (sel_type : List ℕ) (sys_charge_map model_charge_map : List ℚ) :
    (type_map.length ≠ sys_charge_map.length →
      dump_dplr_lammps_data atoms type_map sel_type sys_charge_map model_charge_map =
        .error .typeMapChargeMapMismatch) ∧
    (type_map.length = sys_charge_map.length → sel_type.length ≠ model_charge_map.length →
      dump_dplr_lammps_data atoms type_map sel_type sys_charge_map model_charge_map =
        .error .selTypeModelChargeMapMismatch) := by
  constructor
  · intro h
    simp only [dump_dplr_lammps_data]
    rw [if_pos h]
  · intro h1 h2
    simp only [dump_dplr_lammps_data]
    rw [if_neg (fun hh => hh h1), if_pos h2]

/-- C8 witness: both mismatch shapes at concrete inputs. -/
theorem dump_dplr_lammps_data_length_mismatch_witness :
    (["O", "H"] : List String).length ≠ ([6] : List ℚ).length ∧
    dump_dplr_lammps_data atomsLmp ["O", "H"] [0] [6] [-8] =
      .error .typeMapChargeMapMismatch ∧
    ([0] : List ℕ).length ≠ ([] : List ℚ).length ∧
    dump_dplr_lammps_data atomsLmp ["O", "H"] [0] [6, 1] [] =
      .error .selTypeModelChargeMapMismatch :=
  ⟨by decide,
    (dump_dplr_lammps_data_length_mismatch atomsLmp ["O", "H"] [0] [6] [-8]).1 (by decide),
    by decide,
    (dump_dplr_lammps_data_length_mismatch atomsLmp ["O", "H"] [0] [6, 1] []).2 (by decide)
      (by decide)⟩

lemma chemical_symbols_reverse_nodup : chemical_symbols.reverse.Nodup := by decide

lemma guLoop_inv (used : List String) (size : ℕ) :
    ∀ (rest acc : List String), rest.Nodup → (∀ x ∈ acc, x ∉ used) → acc.Nodup →
      (∀ x ∈ acc, x ∉ rest) →
      (∀ s ∈ guLoop used size rest acc, s ∉ used) ∧ (guLoop used size rest acc).Nodup
  | [], acc, _, hau, hand, _ => by
    simp only [guLoop]
    exact ⟨hau, hand⟩
  | s :: rest, acc, hrnd, hau, hand, har => by
    have hsr : s ∉ rest := (List.nodup_cons.mp hrnd).1
    have hrnd' : rest.Nodup := (List.nodup_cons.mp hrnd).2
    by_cases hs : s ∈ used
    · simp only [guLoop]
      rw [if_pos hs]
      have har' : ∀ x ∈ acc, x ∉ rest :=
        fun x hx => fun hr => har x hx (List.mem_cons_of_mem s hr)
      by_cases hlen : acc.length = size
      · rw [if_pos hlen]
        exact ⟨hau, hand⟩
      · rw [if_neg hlen]
        exact guLoop_inv used size rest acc hrnd' hau hand har'
    · simp only [guLoop]
      rw [if_neg hs]
      have hau1 : ∀ x ∈ acc ++ [s], x ∉ used := by
        intro x hx
        rcases List.mem_append.mp hx with hx' | hx'
        · exact hau x hx'
        · rw [List.mem_singleton.mp hx']
          exact hs
      have hand1 : (acc ++ [s]).Nodup := by
        refine List.Nodup.append hand (List.nodup_singleton s) ?_
        intro x hx hx'
        rw [List.mem_singleton.mp hx'] at hx
        exact har s hx (List.mem_cons_self s rest)
      have har1 : ∀ x ∈ acc ++ [s], x ∉ rest := by
        intro x hx
        rcases List.mem_append.mp hx with hx' | hx'
        · exact fun hr => har x hx' (List.mem_cons_of_mem s hr)
        · rw [List.mem_singleton.mp hx']
          exact hsr
      by_cases hlen : (acc ++ [s]).length = size
      · rw [if_pos hlen]
        exact ⟨hau1, hand1⟩
      · rw [if_neg hlen]
        exact guLoop_inv used size rest (acc ++ [s]) hrnd' hau1 hand1 har1

/-- C9: unused-symbol selection is deterministic (a pure scan of the
reversed canonical element list), never returns a symbol already in the
used list, and returns pairwise distinct symbols. -/
theorem get_unused_symbols_fresh_and_distinct (used_symbols : List String) (size : ℕ) :
    get_unused_symbols used_symbols size =
      guLoop used_symbols size chemical_symbols.reverse [] ∧
    (∀ s ∈ get_unused_symbols used_symbols size, s ∉ used_symbols) ∧
    (get_unused_symbols used_symbols size).Nodup := by
  refine ⟨rfl, ?_⟩
  exact guLoop_inv used_symbols size chemical_symbols.reverse []
    chemical_symbols_reverse_nodup (by simp) List.nodup_nil (by simp)

/-- C9 witness: for `used = [O, H]` and one requested symbol the scan picks
`Og`, which is fresh. -/
theorem get_unused_symbols_fresh_and_distinct_witness :
    get_unused_symbols ["O", "H"] 1 = ["Og"] ∧
    "Og" ∉ (["O", "H"] : List String) ∧ (["Og"] : List String).Nodup :=
  ⟨by decide,
    (get_unused_symbols_fresh_and_distinct ["O", "H"] 1).2.1 "Og" (by decide),
    by decide⟩

lemma dplrLoopHeap_preserves (atomsRef newRef : ℕ) (type_map : List String) :
    ∀ (l : List (ℕ × String)) (h : Heap) (r_ids v_ids : List ℕ),
      atomsRef < newRef → newRef ≤ List.length h →
      List.getD (dplrLoopHeap atomsRef newRef type_map l h r_ids v_ids).1 atomsRef
        Atoms.empty = List.getD h atomsRef Atoms.empty
  | [], _, _, _, _, _ => rfl
  | av :: l, h, r_ids, v_ids, han, hnl => by
    have hra : atomsRef < List.length h := lt_of_lt_of_le han hnl
    have hrv : List.length h ≠ atomsRef := Nat.ne_of_gt hra
    have hrn : newRef ≠ atomsRef := Nat.ne_of_gt han
    simp only [dplrLoopHeap, Heap.alloc, Heap.write, Heap.get, Heap.length]
    rw [dplrLoopHeap_preserves atomsRef newRef type_map l _ _ _ han
      (by simp only [List.length_set, List.length_append, List.length_singleton]; omega)]
    rw [getD_set_of_ne _ _ _ _ _ hrn, getD_set_of_ne _ _ _ _ _ hrv,
      getD_append_of_lt _ _ _ _ hra]

/-- C10: `dump_dplr_lammps_data` never mutates the caller's `Atoms` object:
in the heap model of its object mutations, the object at the caller's
reference is unchanged on return, both on the length-mismatch error paths
(where the heap is untouched) and on the normal path (where every mutation
targets the freshly allocated copies). -/
theorem dump_dplr_lammps_data_preserves_input (h : Heap) (atomsRef : ℕ)
    (type_map : List String) (sel_type : List ℕ) (sys_charge_map model_charge_map : List ℚ)
    (href : atomsRef < h.length) :
    ((dump_dplr_lammps_data_heap h atomsRef type_map sel_type sys_charge_map
      model_charge_map).1).get atomsRef = h.get atomsRef := by
  by_cases h1 : type_map.length ≠ sys_charge_map.length
  · simp only [dump_dplr_lammps_data_heap]
    rw [if_pos h1]
  · by_cases h2 : sel_type.length ≠ model_charge_map.length
    · simp only [dump_dplr_lammps_data_heap]
      rw [if_neg h1, if_pos h2]
    · simp only [dump_dplr_lammps_data_heap]
      rw [if_neg h1, if_neg h2]
      simp only [Heap.alloc, Heap.get, Heap.length]
      rw [dplrLoopHeap_preserves atomsRef (List.length h) type_map
        (sel_type.zip (get_unused_symbols type_map sel_type.length))
        (h ++ [List.getD h atomsRef Atoms.empty]) [] [] href
        (by simp only [List.length_append, List.length_singleton]; omega)]
      exact getD_append_of_lt _ _ _ _ href

/-- C10 witness: the concrete heap holding only `atomsLmp`. -/
theorem dump_dplr_lammps_data_preserves_input_witness :
    0 < List.length ([atomsLmp] : Heap) ∧
    Heap.get (dump_dplr_lammps_data_heap [atomsLmp] 0 ["O", "H"] [0] [6, 1] [-8]).1 0 =
      Heap.get [atomsLmp] 0 :=
  ⟨by decide,
    dump_dplr_lammps_data_preserves_input [atomsLmp] 0 ["O", "H"] [0] [6, 1] [-8] (by decide)⟩

end Dplr
